import Mathlib

/-!
Verification of the MDIO-over-shell register-access shim in
`src/phy_demo_appl/appl/vtss_appl_board_viper_eval_mdiotools.c` and of the
size guard in `src/meba/src/my_own/meba.c`, against the repository's
natural-language specification.

Strings are modelled as `List Char`; the C functions are shallowly embedded
below, following the source line by line.  C `int` return codes are `Int`
(the host platform has 32-bit `int`, so a `uint16_t` promoted to `int` keeps
its value 0..65535).  Captured subprocess stdout is modelled as the list of
chunks successively returned by `fgets` (each chunk is at most 1023
characters and ends at a newline or at end of file).
-/

/-- `VTSS_RC_OK` of the vendor API, numerically 0; failures in this file are
returned as the literal `-1`, as in the C source. -/
def VTSS_RC_OK : Int := 0

/-- C `isspace` on the default locale: space (32) or 9..13. -/
def isSpaceC (c : Char) : Bool :=
  c.toNat = 32 || (9 ≤ c.toNat && c.toNat ≤ 13)

/-- C hex-digit test as used by `strtol` base 16: `0`..`9`, `a`..`f`, `A`..`F`. -/
def isHexDigitC (c : Char) : Bool :=
  (48 ≤ c.toNat && c.toNat ≤ 57) || (97 ≤ c.toNat && c.toNat ≤ 102)
    || (65 ≤ c.toNat && c.toNat ≤ 70)

/-- Numeric value of a hex digit character. -/
def hexDigitVal (c : Char) : Nat :=
  if c.toNat ≤ 57 then c.toNat - 48
  else if 97 ≤ c.toNat then c.toNat - 87
  else c.toNat - 55

/-- `strtol` digit loop: consume the longest run of hex digits, accumulating
the value; stops at the first non-hex character. -/
def takeHexDigits : List Char → Nat → Nat
  | [], acc => acc
  | c :: rest, acc =>
      if isHexDigitC c then takeHexDigits rest (acc * 16 + hexDigitVal c) else acc

/-- Whether a character list starts with a hex digit. -/
def headIsHexDigit : List Char → Bool
  | [] => false
  | c :: _ => isHexDigitC c

/-- `strtol(s, NULL, 16)` after sign handling: an optional `0x`/`0X` marker is
consumed only when a hex digit follows (otherwise only the `0` is consumed,
which contributes value 0 either way), then the longest hex-digit run. -/
def strtolDigits16 (s : List Char) : Nat :=
  match s with
  | c0 :: c1 :: rest =>
      if c0.toNat = 48 && (c1.toNat = 120 || c1.toNat = 88) && headIsHexDigit rest
      then takeHexDigits rest 0
      else takeHexDigits s 0
  | _ => takeHexDigits s 0

/-- `strtol` sign handling: `-` (45) negates, `+` (43) is skipped. -/
def strtolSigned : List Char → Int
  | [] => 0
  | c :: rest =>
      if c.toNat = 45 then -(strtolDigits16 rest : Int)
      else if c.toNat = 43 then (strtolDigits16 rest : Int)
      else (strtolDigits16 (c :: rest) : Int)

/-- `strtol(s, NULL, 16)`: skip leading whitespace, then sign, marker and
digits.  Overflow clamping is irrelevant here (inputs have ≤ 2 characters). -/
def strtol16 (s : List Char) : Int :=
  strtolSigned (s.dropWhile isSpaceC)

/-- C cast `(uint8_t)v` of an `int`: reduction modulo 256. -/
def toUInt8cast (v : Int) : Nat := (v % 256).toNat

/-- The `0x`-stripping step of `hex_string_to_uint16`: the C code tests
`stripped_str[0]=='0' && stripped_str[1]=='x'` and then `memmove`s the tail
(including the terminator) over the first two characters. -/
def strip0x (s : List Char) : List Char :=
  if s.take 2 = ['0', 'x'] then s.drop 2 else s

/-- Body of `hex_string_to_uint16` after stripping: reject (returning
`(uint16_t)-1 = 65535`) exactly when the length differs from 4; otherwise
convert characters 0-1 and 2-3 with `strtol` base 16, cast each to `uint8_t`,
and combine as `(high << 8) | low`. -/
def hex_core4 (stripped : List Char) : Nat :=
  if stripped.length ≠ 4 then 65535
  else
    let high_byte_val := toUInt8cast (strtol16 (stripped.take 2))
    let low_byte_val := toUInt8cast (strtol16 ((stripped.drop 2).take 2))
    (high_byte_val <<< 8) ||| low_byte_val

/-- `hex_string_to_uint16` from
`vtss_appl_board_viper_eval_mdiotools.c:66-88`. -/
def hex_string_to_uint16 (hex_str : List Char) : Nat :=
  hex_core4 (strip0x hex_str)

/-- `miim_read` from `vtss_appl_board_viper_eval_mdiotools.c:92-132`,
abstracted over whether `popen` succeeded, the list of `fgets` chunks, and
the (indeterminate) initial content of the 1024-byte stack buffer, which is
what gets parsed when the subprocess writes nothing.  Each `fgets` overwrites
the buffer from the start, so after the loop the buffer holds the last chunk;
`output[6] = '\0'` then truncates the C string to its first 6 characters.
The result is the returned `vtss_rc` paired with the value stored through
`*value` (`none` when the early `popen` failure leaves it unwritten).
The comparison `*value == -1` promotes the `uint16_t` to a 32-bit `int`, so
it is the test `(v : Int) = -1` on a value in 0..65535. -/
def miim_read (popenOk : Bool) (lines : List (List Char)) (initBuf : List Char) :
    Int × Option Nat :=
  if popenOk then
    let buf := lines.getLast?.getD initBuf
    let v := hex_string_to_uint16 (buf.take 6)
    if (v : Int) = -1 then (-1, some v) else (VTSS_RC_OK, some v)
  else (-1, none)

/-- `miim_write` from `vtss_appl_board_viper_eval_mdiotools.c:134-165`,
abstracted over whether `popen` succeeded and the captured stdout chunks:
a single `fgets` distinguishes "no output at all" (returns `VTSS_RC_OK`)
from "some output" (returns -1). -/
def miim_write (popenOk : Bool) (lines : List (List Char)) : Int :=
  if popenOk then (if lines.isEmpty then VTSS_RC_OK else -1) else -1

/-- The command string built by `miim_read` (line 98):
`snprintf(command, ..., "sudo mdio gpio-0 phy %i raw %i", port_no, addr)`.
`%i` renders the arguments in decimal (both fit in a nonnegative `int`:
`addr` is a `uint8_t`, and port numbers are small). -/
def miim_read_command (port_no addr : Nat) : String :=
  "sudo mdio gpio-0 phy " ++ Nat.repr port_no ++ " raw " ++ Nat.repr addr

/-- Modelled from the spec's words (§6): the read command line is
`<tool> <bus> phy <port> raw <address>` with `port` and `address`
substituted positionally as decimal integers. -/
def spec_read_command (tool bus : String) (port addr : Nat) : String :=
  tool ++ " " ++ bus ++ " phy " ++ Nat.repr port ++ " raw " ++ Nat.repr addr

/-- Modelled from the spec's words (§8): a valid read token is 4 hex digits,
optionally preceded by `0x`. -/
def spec_is_valid_hex4 (s : List Char) : Bool :=
  let t := if s.take 2 = ['0', 'x'] then s.drop 2 else s
  t.length = 4 && t.all isHexDigitC

/-- The discovery self-check condition of `viper_board_init`
(`vtss_appl_board_viper_eval_mdiotools.c:238-241`): the init aborts when
`t[0] != 27 && t[1] != 91 && t[2] != 55 && t[3] != 109`, i.e. only when all
four leading bytes differ from the escape sequence `ESC [ 7 m`. -/
def viper_discovery_check_fails (t0 t1 t2 t3 : Nat) : Bool :=
  (t0 != 27) && (t1 != 91) && (t2 != 55) && (t3 != 109)

/-- The six signal-detect-polarity `miim_write` transactions
(port, addr, value) issued by `viper_board_init` lines 246-252 when the
discovery check passes. -/
def viper_signal_detect_writes : List (Nat × Nat × Nat) :=
  [(0, 31, 1), (0, 19, 1), (0, 31, 0), (3, 31, 1), (3, 19, 1), (3, 31, 0)]

/-- The read/write transactions attempted by `viper_board_init` after the
discovery command, as a function of the first four bytes of the discovery
output (lines 212-253): nothing on warm start; nothing when the check
aborts (it prints a failure message and calls `exit`); otherwise the six
signal-detect writes. -/
def viper_board_init_transactions (warmStart : Bool) (t0 t1 t2 t3 : Nat) :
    List (Nat × Nat × Nat) :=
  if warmStart then []
  else if viper_discovery_check_fails t0 t1 t2 t3 then []
  else viper_signal_detect_writes

section MebaModel

/-- Externally observable steps of meba_initialize
(`src/meba/src/my_own/meba.c:138-338`), in program order. -/
inductive MebaEvent where
  | evConfGetBoard
  | evAlloc
  | evGpioModeSet
  | evMiimRead
  | evInitBoard
  | evHookApi
deriving DecidableEq

/-- Result of meba_initialize: `NULL`, a valid instance, or undefined
behaviour (the source dereferences the uninitialized `instance` variable
when the board name matches neither known board). -/
inductive MebaOutcome where
  | retNull
  | retInst
  | undef
deriving DecidableEq

/-- Environment of one meba_initialize call: the board name delivered by
`callouts->conf_get("board", ...)`, whether `meba_state_alloc` succeeds, and
whether `pcb123_init_board` returns `MESA_RC_OK`. -/
structure MebaEnv where
  boardName : List Char
  allocOk : Bool
  initBoardOk : Bool

/-- meba_initialize control flow.  `sizeofCallouts` abstracts the platform
constant `sizeof(meba_board_interface_t)` (its header is not part of this
repository).  The guard at lines 158-163 returns `NULL` before any
configuration query, allocation or board setup. -/
def meba_initialize_impl (calloutsSize sizeofCallouts : Nat) (env : MebaEnv) :
    MebaOutcome × List MebaEvent :=
  if calloutsSize < sizeofCallouts then (.retNull, [])
  else
    let ev0 := [MebaEvent.evConfGetBoard]
    if env.boardName = "Ocelot Ref (pcb123)".data ∨ env.boardName = "ung8290".data then
      if env.allocOk then
        let ev1 := ev0 ++ [.evAlloc, .evGpioModeSet, .evGpioModeSet, .evMiimRead,
                           .evInitBoard]
        if env.initBoardOk then (.retInst, ev1 ++ [.evHookApi]) else (.retNull, ev1)
      else (.retNull, ev0 ++ [.evAlloc])
    else (.undef, ev0)

end MebaModel

/-- Big-endian value of four hex digits: the first two form the high byte,
the last two the low byte (spec §8). -/
def specHexValue (a b c d : Char) : Nat :=
  256 * (16 * hexDigitVal a + hexDigitVal b) + (16 * hexDigitVal c + hexDigitVal d)

lemma lor_high_low : ∀ (n a b : Nat), b < 2 ^ n → a <<< n ||| b = 2 ^ n * a + b := by
  intro n
  induction n with
  | zero =>
    intro a b hb
    have hb0 : b = 0 := by omega
    subst hb0
    simp
  | succ n ih =>
    intro a b hb
    have h2 : 0 < 2 ^ n := Nat.pos_pow_of_pos n (by norm_num)
    have hd : b.div2 < 2 ^ n := by
      rw [Nat.div2_val]
      rw [Nat.pow_succ] at hb
      omega
    have hstep : a <<< (n + 1) = Nat.bit false (a <<< n) := by
      rw [Nat.shiftLeft_eq, Nat.shiftLeft_eq, Nat.bit_val, Nat.pow_succ]
      simp
      ring
    have hsum := Nat.bodd_add_div2 b
    calc a <<< (n + 1) ||| b
        = Nat.bit false (a <<< n) ||| Nat.bit b.bodd b.div2 := by
          rw [hstep, Nat.bit_decomp]
      _ = Nat.bit (false || b.bodd) ((a <<< n) ||| b.div2) := Nat.lor_bit _ _ _ _
      _ = Nat.bit b.bodd (2 ^ n * a + b.div2) := by rw [Bool.false_or, ih a b.div2 hd]
      _ = 2 * (2 ^ n * a + b.div2) + b.bodd.toNat := Nat.bit_val _ _
      _ = 2 ^ (n + 1) * a + b := by rw [Nat.pow_succ, mul_right_comm]; omega

lemma or_high_low8 (a b : Nat) (hb : b < 256) : a <<< 8 ||| b = 256 * a + b := by
  have h := lor_high_low 8 a b (by norm_num; omega)
  norm_num at h
  exact h

lemma isHexDigitC_ranges {c : Char} (h : isHexDigitC c = true) :
    (48 ≤ c.toNat ∧ c.toNat ≤ 57) ∨ (97 ≤ c.toNat ∧ c.toNat ≤ 102) ∨
      (65 ≤ c.toNat ∧ c.toNat ≤ 70) := by
  simpa [isHexDigitC, or_assoc] using h

lemma hexDigit_not_space {c : Char} (h : isHexDigitC c = true) : isSpaceC c = false := by
  have h' := isHexDigitC_ranges h
  simp only [isSpaceC, Bool.or_eq_false_iff, Bool.and_eq_false_iff, decide_eq_false_iff_not,
    not_le]
  omega

lemma hexDigitVal_lt16 {c : Char} (h : isHexDigitC c = true) : hexDigitVal c < 16 := by
  have h' := isHexDigitC_ranges h
  unfold hexDigitVal
  split_ifs <;> omega

lemma strtol16_two_hex {a b : Char} (ha : isHexDigitC a = true) (hb : isHexDigitC b = true) :
    strtol16 [a, b] = ((hexDigitVal a * 16 + hexDigitVal b : Nat) : Int) := by
  have hra := isHexDigitC_ranges ha
  have hsa := hexDigit_not_space ha
  have h45 : ¬a.toNat = 45 := by omega
  have h43 : ¬a.toNat = 43 := by omega
  simp [strtol16, List.dropWhile_cons, hsa, strtolSigned, h45, h43, strtolDigits16,
    headIsHexDigit, takeHexDigits, ha, hb]

lemma toUInt8cast_ofNat {v : Nat} (h : v < 256) : toUInt8cast (v : Int) = v := by
  unfold toUInt8cast
  omega

lemma hex_core4_hex {a b c d : Char} (ha : isHexDigitC a = true) (hb : isHexDigitC b = true)
    (hc : isHexDigitC c = true) (hd : isHexDigitC d = true) :
    hex_core4 [a, b, c, d] = specHexValue a b c d := by
  have hva := hexDigitVal_lt16 ha
  have hvb := hexDigitVal_lt16 hb
  have hvc := hexDigitVal_lt16 hc
  have hvd := hexDigitVal_lt16 hd
  have hhi : hexDigitVal a * 16 + hexDigitVal b < 256 := by omega
  have hlo : hexDigitVal c * 16 + hexDigitVal d < 256 := by omega
  have htk : ([a, b, c, d] : List Char).take 2 = [a, b] := rfl
  have hdk : (([a, b, c, d] : List Char).drop 2).take 2 = [c, d] := rfl
  have hlen : ¬(([a, b, c, d] : List Char).length ≠ 4) := by simp
  simp only [hex_core4, hlen, if_false, htk, hdk, strtol16_two_hex ha hb,
    strtol16_two_hex hc hd, toUInt8cast_ofNat hhi, toUInt8cast_ofNat hlo,
    or_high_low8 _ _ hlo, specHexValue]
  omega

lemma take2_ne_marker {a b : Char} (hb : isHexDigitC b = true) (rest : List Char) :
    (a :: b :: rest).take 2 ≠ ['0', 'x'] := by
  have hrb := isHexDigitC_ranges hb
  intro h
  simp only [List.take_succ_cons, List.take_zero, List.cons.injEq, and_true] at h
  have hx : b.toNat = 120 := by rw [h.2]; rfl
  omega

lemma strip0x_of_ne {s : List Char} (h : s.take 2 ≠ ['0', 'x']) : strip0x s = s := by
  simp [strip0x, h]

lemma hex_string_unprefixed {a b c d : Char} (ha : isHexDigitC a = true)
    (hb : isHexDigitC b = true) (hc : isHexDigitC c = true) (hd : isHexDigitC d = true) :
    hex_string_to_uint16 [a, b, c, d] = specHexValue a b c d := by
  unfold hex_string_to_uint16
  rw [strip0x_of_ne (take2_ne_marker hb _), hex_core4_hex ha hb hc hd]

lemma hex_string_with_marker {a b c d : Char} (ha : isHexDigitC a = true)
    (hb : isHexDigitC b = true) (hc : isHexDigitC c = true) (hd : isHexDigitC d = true) :
    hex_string_to_uint16 ['0', 'x', a, b, c, d] = specHexValue a b c d := by
  unfold hex_string_to_uint16
  have hs : strip0x ['0', 'x', a, b, c, d] = [a, b, c, d] := rfl
  rw [hs, hex_core4_hex ha hb hc hd]

lemma hex_string_newline_tail {a b c d : Char} (hb : isHexDigitC b = true) :
    hex_string_to_uint16 [a, b, c, d, '\n'] = 65535 := by
  unfold hex_string_to_uint16
  rw [strip0x_of_ne (take2_ne_marker hb _)]
  rfl

lemma miim_read_concat (pre : List (List Char)) (l initBuf : List Char) :
    miim_read true (pre ++ [l]) initBuf
      = (VTSS_RC_OK, some (hex_string_to_uint16 (l.take 6))) := by
  have hlast : (pre ++ [l]).getLast? = some l := by
    rw [List.getLast?_concat]
  have hne : ¬((hex_string_to_uint16 (l.take 6) : Int) = -1) := by omega
  simp [miim_read, hlast, hne]

/-- Claim C1: the claim states that `miim_read` returns a failure status for
every captured output that is not a well-formed 4-hex-digit token.  The code
violates this: with `popen` succeeding and captured output `"zz\n"` (not a
valid token), `hex_string_to_uint16` yields 65535, the guard `*value == -1`
compares the promoted `uint16_t` (65535) against `int` -1 and is always
false, and `miim_read` returns `VTSS_RC_OK`. -/
theorem miim_read_malformed_output_returns_ok :
    spec_is_valid_hex4 ((['z', 'z', '\n'] : List Char).take 6) = false ∧
    miim_read true [['z', 'z', '\n']] [] = (VTSS_RC_OK, some 65535) ∧
    VTSS_RC_OK ≠ (-1 : Int) := by decide

/-- Claim C2 (counterexample): `"ZZZZ"` does not match the 4-hex-digit
pattern, yet `hex_string_to_uint16` does not report a failure on it: it
returns 0, the same value as for the valid input `"0000"` — a silently
wrong value, not the failure indicator 65535. -/
theorem hex_string_to_uint16_nonhex_silent :
    spec_is_valid_hex4 ['Z', 'Z', 'Z', 'Z'] = false ∧
    hex_string_to_uint16 ['Z', 'Z', 'Z', 'Z'] = 0 ∧
    hex_string_to_uint16 ['0', '0', '0', '0'] = 0 ∧
    hex_string_to_uint16 ['Z', 'Z', 'Z', 'Z'] ≠ 65535 := by decide

/-- Claim C2 (amended): only the length is validated.  For every input whose
`0x`-stripped form does not have length 4 (too short, too long, empty),
`hex_string_to_uint16` reports the failure indicator `(uint16_t)-1 = 65535`;
length-4 inputs with non-hex characters are not rejected. -/
theorem hex_string_to_uint16_bad_length (s : List Char)
    (h : (strip0x s).length ≠ 4) : hex_string_to_uint16 s = 65535 := by
  simp [hex_string_to_uint16, hex_core4, h]

theorem hex_string_to_uint16_bad_length_witness :
    (strip0x []).length ≠ 4 ∧ hex_string_to_uint16 [] = 65535 :=
  ⟨by decide, hex_string_to_uint16_bad_length [] (by decide)⟩

/-- Claim C3: when `popen` succeeds, `miim_write` returns `VTSS_RC_OK` if
and only if the captured stdout is exactly empty; any non-empty output —
including a single space or a lone newline — yields the failure status -1. -/
theorem miim_write_ok_iff_empty_output :
    (∀ lines : List (List Char), miim_write true lines = VTSS_RC_OK ↔ lines = []) ∧
    miim_write true [[' ']] = -1 ∧ miim_write true [['\n']] = -1 := by
  refine ⟨fun lines => ?_, by decide, by decide⟩
  cases lines <;> simp [miim_write, VTSS_RC_OK]

/-- Claim C4: for every 4-hex-digit string, with or without the `0x` marker
in front, `hex_string_to_uint16` returns the big-endian 16-bit value: the
first two digits form the high byte and the last two the low byte. -/
theorem hex_string_to_uint16_valid_hex4 (a b c d : Char) (ha : isHexDigitC a = true)
    (hb : isHexDigitC b = true) (hc : isHexDigitC c = true) (hd : isHexDigitC d = true) :
    hex_string_to_uint16 [a, b, c, d] = specHexValue a b c d ∧
    hex_string_to_uint16 ['0', 'x', a, b, c, d] = specHexValue a b c d :=
  ⟨hex_string_unprefixed ha hb hc hd, hex_string_with_marker ha hb hc hd⟩

theorem hex_string_to_uint16_valid_hex4_witness :
    (hex_string_to_uint16 ['0', 'x', '1', 'A', '2', 'B'] = specHexValue '1' 'A' '2' 'B' ∧
      hex_string_to_uint16 ['1', 'A', '2', 'B'] = specHexValue '1' 'A' '2' 'B') ∧
    hex_string_to_uint16 ['0', '0', 'F', 'F'] = specHexValue '0' '0' 'F' 'F' ∧
    specHexValue '1' 'A' '2' 'B' = 0x1A2B ∧ specHexValue '0' '0' 'F' 'F' = 0x00FF :=
  ⟨⟨(hex_string_to_uint16_valid_hex4 '1' 'A' '2' 'B' (by decide) (by decide) (by decide)
        (by decide)).2,
    (hex_string_to_uint16_valid_hex4 '1' 'A' '2' 'B' (by decide) (by decide) (by decide)
        (by decide)).1⟩,
   (hex_string_to_uint16_valid_hex4 '0' '0' 'F' 'F' (by decide) (by decide) (by decide)
        (by decide)).1,
   by decide, by decide⟩

/-- Claim C5: the claim states that initialization proceeds exactly when the
first bytes of the discovery output match the expected header, and aborts on
every other prefix.  The code violates the second half: the abort condition
chains the four byte comparisons with `&&`, so it aborts only when ALL four
bytes differ from 27, 91, 55, 109 (`ESC [ 7 m`).  Bytes 27,65,66,67 do not
match the expected header, yet initialization proceeds and issues the six
signal-detect writes; a full match also proceeds; and the column header
documented in the code's own comment, `" DEV"` = 32,68,69,86, aborts. -/
theorem viper_discovery_check_divergence :
    viper_board_init_transactions false 27 65 66 67 = viper_signal_detect_writes ∧
    ((65 : Nat) ≠ 91 ∧ (66 : Nat) ≠ 55 ∧ (67 : Nat) ≠ 109) ∧
    viper_board_init_transactions false 27 91 55 109 = viper_signal_detect_writes ∧
    viper_board_init_transactions false 32 68 69 86 = [] := by decide

/-- Claim C6 (counterexample): the line `"abcd\n"` consists of an
unprefixed 4-hex-digit token, yet `miim_read` does not store 0xABCD: the
newline survives the 6-character truncation, the 5-character string fails
the length check, and 65535 is stored instead. -/
theorem miim_read_unprefixed_newline_counterexample :
    miim_read true [['a', 'b', 'c', 'd', '\n']] [] = (VTSS_RC_OK, some 65535) ∧
    (65535 : Nat) ≠ 0xABCD := by decide

/-- Claim C6 (amended): a `0x`-prefixed 4-hex-digit line is parsed to its
big-endian value whether or not a trailing newline was captured; an
unprefixed 4-hex-digit token is parsed correctly only when captured without
a trailing newline — with a newline the stored value is 65535 (and the
returned status is still `VTSS_RC_OK`). -/
theorem miim_read_hex_token_forms (a b c d : Char) (ha : isHexDigitC a = true)
    (hb : isHexDigitC b = true) (hc : isHexDigitC c = true) (hd : isHexDigitC d = true)
    (pre : List (List Char)) (initBuf : List Char) :
    miim_read true (pre ++ [['0', 'x', a, b, c, d]]) initBuf
      = (VTSS_RC_OK, some (specHexValue a b c d)) ∧
    miim_read true (pre ++ [['0', 'x', a, b, c, d, '\n']]) initBuf
      = (VTSS_RC_OK, some (specHexValue a b c d)) ∧
    miim_read true (pre ++ [[a, b, c, d]]) initBuf
      = (VTSS_RC_OK, some (specHexValue a b c d)) ∧
    miim_read true (pre ++ [[a, b, c, d, '\n']]) initBuf
      = (VTSS_RC_OK, some 65535) := by
  refine ⟨?_, ?_, ?_, ?_⟩ <;> rw [miim_read_concat]
  · have h6 : (['0', 'x', a, b, c, d] : List Char).take 6 = ['0', 'x', a, b, c, d] := rfl
    rw [h6, hex_string_with_marker ha hb hc hd]
  · have h6 : (['0', 'x', a, b, c, d, '\n'] : List Char).take 6 = ['0', 'x', a, b, c, d] := rfl
    rw [h6, hex_string_with_marker ha hb hc hd]
  · have h6 : ([a, b, c, d] : List Char).take 6 = [a, b, c, d] := rfl
    rw [h6, hex_string_unprefixed ha hb hc hd]
  · have h6 : ([a, b, c, d, '\n'] : List Char).take 6 = [a, b, c, d, '\n'] := rfl
    rw [h6, hex_string_newline_tail hb]

theorem miim_read_hex_token_forms_witness :
    isHexDigitC '1' = true ∧
    (miim_read true ([] ++ [['0', 'x', '1', 'A', '2', 'B']]) []
        = (VTSS_RC_OK, some (specHexValue '1' 'A' '2' 'B')) ∧
      miim_read true ([] ++ [['0', 'x', '1', 'A', '2', 'B', '\n']]) []
        = (VTSS_RC_OK, some (specHexValue '1' 'A' '2' 'B')) ∧
      miim_read true ([] ++ [['1', 'A', '2', 'B']]) []
        = (VTSS_RC_OK, some (specHexValue '1' 'A' '2' 'B')) ∧
      miim_read true ([] ++ [['1', 'A', '2', 'B', '\n']]) []
        = (VTSS_RC_OK, some 65535)) :=
  ⟨by decide,
   miim_read_hex_token_forms '1' 'A' '2' 'B' (by decide) (by decide) (by decide)
     (by decide) [] []⟩

/-- Claim C7: for every port number and every address up to 255, the read
command line is `<tool> <bus> phy <port> raw <address>` with the tool
`sudo mdio`, the bus `gpio-0`, and port and address substituted positionally
in decimal; the boundary addresses 0 and 255 pass through unchanged. -/
theorem miim_read_command_format (port_no addr : Nat) (h : addr ≤ 255) :
    miim_read_command port_no addr = spec_read_command "sudo mdio" "gpio-0" port_no addr :=
  rfl

theorem miim_read_command_format_witness :
    (255 ≤ 255 ∧
      miim_read_command 0 255 = spec_read_command "sudo mdio" "gpio-0" 0 255) ∧
    (0 ≤ 255 ∧
      miim_read_command 7 0 = spec_read_command "sudo mdio" "gpio-0" 7 0) ∧
    miim_read_command 0 255 = "sudo mdio gpio-0 phy 0 raw 255" ∧
    miim_read_command 7 0 = "sudo mdio gpio-0 phy 7 raw 0" :=
  ⟨⟨by decide, miim_read_command_format 0 255 (by decide)⟩,
   ⟨by decide, miim_read_command_format 7 0 (by decide)⟩,
   by decide, by decide⟩

/-- Claim C8: the failure indicator of `hex_string_to_uint16` is
`(uint16_t)-1 = 0xFFFF = 65535`, which is exactly the value returned for the
valid input `"FFFF"`: the empty (invalid-length) string and `"FFFF"` yield
the same result. -/
theorem hex_failure_indicator_is_ffff :
    hex_string_to_uint16 [] = 65535 ∧
    hex_string_to_uint16 ['F', 'F', 'F', 'F'] = 65535 ∧
    hex_string_to_uint16 [] = hex_string_to_uint16 ['F', 'F', 'F', 'F'] := by decide

/-- Claim C9: the value stored by `miim_read` is derived solely from the
last captured line, truncated to its first 6 characters (`output[6] = '\0'`
makes the 7th character the terminator); earlier lines and the initial
buffer content are irrelevant. -/
theorem miim_read_depends_on_last_line (pre pre2 : List (List Char))
    (l initBuf initBuf2 : List Char) :
    miim_read true (pre ++ [l]) initBuf
      = (VTSS_RC_OK, some (hex_string_to_uint16 (l.take 6))) ∧
    miim_read true (pre ++ [l]) initBuf = miim_read true (pre2 ++ [l]) initBuf2 := by
  constructor
  · exact miim_read_concat pre l initBuf
  · rw [miim_read_concat, miim_read_concat]

/-- Claim C10: for every `callouts_size` strictly smaller than the size of
the `meba_board_interface_t` struct, meba_initialize returns `NULL`
immediately: no configuration query, no instance allocation and no board
setup is performed (the event trace is empty). -/
theorem meba_initialize_size_check (calloutsSize sizeofCallouts : Nat) (env : MebaEnv)
    (h : calloutsSize < sizeofCallouts) :
    meba_initialize_impl calloutsSize sizeofCallouts env = (MebaOutcome.retNull, []) := by
  simp [meba_initialize_impl, h]

theorem meba_initialize_size_check_witness :
    0 < 1 ∧
    meba_initialize_impl 0 1 ⟨"Ocelot Ref (pcb123)".data, true, true⟩
      = (MebaOutcome.retNull, []) :=
  ⟨by decide, meba_initialize_size_check 0 1 _ (by decide)⟩
